import Mathlib

/-!
Verification of `llvm-from-source.py` against its natural-language
specification.  The script is a thin CLI wrapper that optionally clones the
LLVM repository, then drives CMake configure / build / install inside scoped
working-directory changes with temporary-directory cleanup.

The shallow embedding models the process world as a state: the current
working directory, the set of existing directories, a counter for fresh
temporary-directory names, and an event trace (subprocess invocations and
log records).  Python exceptions are modelled with `Except`; state changes
made before an exception persist, as they do for a real process, so the
monad is `Sys → Except Err α × Sys`.  Subprocess exit codes are supplied by
an oracle `Config.exitCode`, environment variables by `Config.env`.
-/

namespace LlvmFromSource

/-- An observable action of the program: an external process invocation
(`subprocess.run` with its argument vector) or a log record (level and
message; `none` models Python's `None` as a message). -/
inductive Event where
  | run : List String → Event
  | log : Nat → Option String → Event
deriving DecidableEq, Repr

/-- Result of `subprocess.run`: the exit code and the captured stderr.
The script calls `subprocess.run` without `capture_output`/`stderr=PIPE`,
so `CompletedProcess.stderr` is always Python `None`, modelled as `none`. -/
structure RunResult where
  returncode : Nat
  stderr : Option String
deriving DecidableEq, Repr

/-- Exceptions the script can raise: `CalledProcessError` from
`check_returncode` (carrying the command and its exit code) and a filesystem
error from `os.chdir` on a missing directory. -/
inductive Err where
  | calledProcessError : List String → Nat → Err
  | fileNotFoundError : String → Err
deriving DecidableEq, Repr

/-- The process world: current working directory, the directories that
exist, a counter feeding fresh temporary-directory names, and the trace of
observable events. -/
structure Sys where
  cwd : String
  dirs : List String
  tmpCounter : Nat
  events : List Event
deriving DecidableEq, Repr

/-- Ambient, read-only data of a run: the environment (`os.getenv`), the
exit-code oracle for external commands, the stream of names the `tempfile`
module hands out, and the home directory used by `os.path.expanduser`. -/
structure Config where
  env : String → Option String
  exitCode : List String → Nat
  tmpName : Nat → String
  home : String

/-- The effect monad: state threading where state survives an exception,
as for a real OS process. -/
def M (α : Type) : Type := Sys → Except Err α × Sys

def M.pure {α : Type} (a : α) : M α := fun s => (Except.ok a, s)

def M.bind {α β : Type} (x : M α) (f : α → M β) : M β := fun s =>
  match x s with
  | (Except.ok a, s1) => f a s1
  | (Except.error e, s1) => (Except.error e, s1)

def M.throw {α : Type} (e : Err) : M α := fun s => (Except.error e, s)

/-- Python `try: body finally: fin`.  The finaliser runs on every exit
path; an exception raised by the finaliser replaces an in-flight one. -/
def M.tryFinally {α : Type} (body : M α) (fin : M Unit) : M α := fun s =>
  match body s with
  | (Except.ok a, s1) =>
      match fin s1 with
      | (Except.ok _, s2) => (Except.ok a, s2)
      | (Except.error e, s2) => (Except.error e, s2)
  | (Except.error e, s1) =>
      match fin s1 with
      | (Except.ok _, s2) => (Except.error e, s2)
      | (Except.error e2, s2) => (Except.error e2, s2)

/-- Model of `os.getcwd()`. -/
def getcwd : M String := fun s => (Except.ok s.cwd, s)

/-- Model of `os.chdir`: succeeds exactly when the directory exists,
otherwise raises a filesystem error and leaves the state unchanged. -/
def chdir (p : String) : M Unit := fun s =>
  if p ∈ s.dirs then (Except.ok (), { s with cwd := p })
  else (Except.error (Err.fileNotFoundError p), s)

/-- Model of `log(level, msg)`: appends a log record to the trace. -/
def logEvent (level : Nat) (msg : Option String) : M Unit := fun s =>
  (Except.ok (), { s with events := s.events ++ [Event.log level msg] })

/-- Model of `subprocess.run(cmd)`: records the invocation and returns the
oracle's exit code.  Output is not captured (the script never passes
`capture_output`), so the returned `stderr` is `none`. -/
def subprocessRun (C : Config) (cmd : List String) : M RunResult := fun s =>
  (Except.ok { returncode := C.exitCode cmd, stderr := none },
   { s with events := s.events ++ [Event.run cmd] })

/-- Model of `CompletedProcess.check_returncode()`: raises
`CalledProcessError` exactly when the exit code is non-zero. -/
def checkReturncode (cmd : List String) (r : RunResult) : M Unit :=
  if r.returncode = 0 then M.pure ()
  else M.throw (Err.calledProcessError cmd r.returncode)

/-- Model of `tempfile.TemporaryDirectory()` creation: a fresh name from
the stream is added to the existing directories. -/
def mkTempDir (C : Config) : M String := fun s =>
  (Except.ok (C.tmpName s.tmpCounter),
   { s with dirs := s.dirs ++ [C.tmpName s.tmpCounter],
            tmpCounter := s.tmpCounter + 1 })

/-- Model of `shutil.rmtree` / temporary-directory cleanup: the directory
no longer exists afterwards.  Deletion failure is not modelled (no claim
depends on it). -/
def rmtree (p : String) : M Unit := fun s =>
  (Except.ok (), { s with dirs := s.dirs.filter (fun d => d != p) })

/-- Character-list prefix test (the kernel can evaluate it, unlike the
byte-position loop inside `String.startsWith`). -/
def strStartsWith (p q : String) : Bool := q.data.isPrefixOf p.data

/-- Character-list suffix test. -/
def strEndsWith (p q : String) : Bool := q.data.isSuffixOf p.data

/-- Drop the first `n` characters of a string. -/
def strDrop (p : String) (n : Nat) : String := String.mk (p.data.drop n)

/-- Model of Python `str.upper()` for the ASCII tool names the script
upper-cases. -/
def strToUpper (p : String) : String := String.mk (p.data.map Char.toUpper)

/-- Model of `os.path.expanduser` for a leading home-directory marker.
The `~user` form is not modelled: the script's inputs only ever use the
bare marker, which the spec calls "a leading home-directory marker". -/
def expanduser (home p : String) : String :=
  if p = "~" then home
  else if strStartsWith p "~/" then home ++ strDrop p 1
  else p

/-- Model of `os.path.join` for two components. -/
def joinPath (a b : String) : String :=
  if strStartsWith b "/" then b
  else if a = "" then b
  else if strEndsWith a "/" then a ++ b
  else a ++ "/" ++ b

/-- Model of `" ".join(cmd)`. -/
def joinSpace : List String → String
  | [] => ""
  | [a] => a
  | a :: rest => a ++ " " ++ joinSpace rest

/-- Source lines 16-17: `which(program)` returns the environment override
`PROGRAM_EXECUTABLE` when set, else the bare program name. -/
def which (C : Config) (program : String) : String :=
  (C.env (strToUpper program ++ "_EXECUTABLE")).getD program

/-- Source lines 20-26: the `cd` context manager.  It saves the current
directory, changes into `expanduser(newdir)` inside the `try`, runs the
scope body, and restores the saved directory in the `finally`. -/
def cd {α : Type} (C : Config) (newdir : String) (body : M α) : M α :=
  M.bind getcwd (fun prevdir =>
    M.tryFinally
      (M.bind (chdir (expanduser C.home newdir)) (fun _ => body))
      (chdir prevdir))

/-- The exact argument vector of the clone at source lines 30-31.  Note the
hard-coded `"git"`: this command does not go through `which`. -/
def git_clone_cmd : List String :=
  ["git", "clone", "--depth", "1", "https://github.com/llvm/llvm-project.git"]

/-- Source lines 29-32: `download_llvm()` runs one shallow clone, checks
its exit code, and returns `os.path.join(os.getcwd(), "llvm-project")`. -/
def download_llvm (C : Config) : M String :=
  M.bind (subprocessRun C git_clone_cmd) (fun r =>
    M.bind (checkReturncode git_clone_cmd r) (fun _ =>
      M.bind getcwd (fun cwd => M.pure (joinPath cwd "llvm-project"))))

/-- The fixed configure flags of source lines 51-52 (the project list keeps
its literal single quotes, written here as hex escapes). -/
def fixed_cmake_flags : List String :=
  ["-DCMAKE_BUILD_TYPE=Release", "-DLLVM_TARGETS_TO_BUILD=X86",
   "-DLLVM_ENABLE_PROJECTS=\x27clang,libcxx,libcxxabi,libunwind,lldb,compiler-rt,lld,polly\x27"]

/-- Source lines 51-59: construction of `cmake_cmd_line`.  `if generator:`
and `if install_prefix:` are Python truthiness tests, so an empty string
behaves like an absent value (`Option.getD "" ≠ ""`). -/
def cmake_cmd_line (cmake_executable source_dir : String)
    (generator installPrefix : Option String) : List String :=
  let base := cmake_executable :: fixed_cmake_flags
  let withG := if generator.getD "" ≠ "" then base ++ ["-G", generator.getD ""] else base
  let withI :=
    if installPrefix.getD "" ≠ "" then
      withG ++ ["-DCMAKE_INSTALL_PREFIX=" ++ installPrefix.getD ""]
    else withG
  withI ++ [joinPath source_dir "llvm"]

/-- The build command of source line 67. -/
def build_cmd_line (cmake_executable : String) : List String :=
  [cmake_executable, "--build", "."]

/-- The install command of source line 75. -/
def install_cmd_line (cmake_executable : String) : List String :=
  [cmake_executable, "--build", ".", "--target", "install"]

/-- Source lines 50-78: the body of the `with` block in `build_llvm` -
configure, build, install, each run and checked in order, logging the
(uncaptured, hence `none`) stderr of a failing step before re-raising. -/
def build_steps (C : Config) (source_dir : String)
    (generator installPrefix : Option String) : M Unit :=
  let cmake_executable := which C "cmake"
  let cmd := cmake_cmd_line cmake_executable source_dir generator installPrefix
  M.bind (logEvent 20 (some (joinSpace cmd))) (fun _ =>
  M.bind (subprocessRun C cmd) (fun cmake =>
  M.bind (if cmake.returncode ≠ 0 then
            M.bind (logEvent 40 cmake.stderr) (fun _ => checkReturncode cmd cmake)
          else M.pure ()) (fun _ =>
  M.bind (logEvent 20 (some (joinSpace (build_cmd_line cmake_executable)))) (fun _ =>
  M.bind (subprocessRun C (build_cmd_line cmake_executable)) (fun build =>
  M.bind (if build.returncode ≠ 0 then
            M.bind (logEvent 40 build.stderr) (fun _ =>
              checkReturncode (build_cmd_line cmake_executable) build)
          else M.pure ()) (fun _ =>
  M.bind (subprocessRun C (install_cmd_line cmake_executable)) (fun install =>
  if install.returncode ≠ 0 then
    M.bind (logEvent 40 install.stderr) (fun _ =>
      checkReturncode (install_cmd_line cmake_executable) install)
  else M.pure ())))))))

/-- Source lines 36-47: the `build_directory` context manager.  With a
truthy `build_dir` it yields `expanduser(build_dir)` and cleans up nothing;
otherwise it creates a temporary directory, yields its name, and removes it
in the `finally` on every exit path. -/
def build_directory {α : Type} (C : Config) (build_dir : Option String)
    (body : String → M α) : M α :=
  if build_dir.getD "" = "" then
    M.bind (mkTempDir C) (fun name => M.tryFinally (body name) (rmtree name))
  else
    body (expanduser C.home (build_dir.getD ""))

/-- Source lines 35-78: `build_llvm` runs the three build steps inside
`build_directory` and `cd`. -/
def build_llvm (C : Config) (source_dir : String)
    (generator build_dir installPrefix : Option String) : M Unit :=
  build_directory C build_dir (fun bd =>
    cd C bd (build_steps C source_dir generator installPrefix))

/-- Source line 98, the source-resolution expression
`os.path.expanduser(args.sources) if args.sources else download_llvm()`:
a truthy `--source` value is expanded and used as-is, otherwise the
repository is cloned. -/
def resolve_source (C : Config) (sources : Option String) : M String :=
  if sources.getD "" ≠ "" then M.pure (expanduser C.home (sources.getD ""))
  else download_llvm C

/-- Model of `with tempfile.TemporaryDirectory() as wd`: create, run the
scope, remove on every exit path. -/
def withTemporaryDirectory {α : Type} (C : Config) (body : String → M α) : M α :=
  M.bind (mkTempDir C) (fun name => M.tryFinally (body name) (rmtree name))

/-- Source lines 93-98: `__main__`.  The parsed CLI flags arrive as
`Option String` (argparse defaults are `None`).  Note that line 97-98
passes only the source, `args.generator` and `args.build_dir` to
`build_llvm`: the parsed `--prefix` value is never forwarded, so
`install_prefix` keeps its default `None` - reproduced here by passing
`none` and ignoring the `prefixFlag` parameter, exactly as the source
ignores `args.prefix`. -/
def main_model (C : Config) (sources generator build_dir prefixFlag : Option String) :
    M Unit :=
  withTemporaryDirectory C (fun wd =>
    cd C wd (
      M.bind (logEvent 20 (some ("Use " ++ wd ++ " as temporary directory"))) (fun _ =>
      M.bind (resolve_source C sources) (fun src =>
        build_llvm C src generator build_dir none))))

/-- Exit status of the Python process: 0 on a normal return, 1 when an
exception escapes `__main__` (CPython terminates with status 1 on an
uncaught exception). -/
def processExitCode {α : Type} (r : Except Err α) : Nat :=
  match r with
  | Except.ok _ => 0
  | Except.error _ => 1

/-- Number of adjacent occurrences of the token pair `(a, b)` in `cmd`. -/
def countPair (cmd : List String) (a b : String) : Nat :=
  (cmd.zip cmd.tail).count (a, b)

/-- Whether an event is a subprocess invocation whose argument vector
contains the token `t`. -/
def runEventHasToken (t : String) : Event → Bool
  | Event.run c => c.contains t
  | Event.log _ _ => false

/-- Whether an event is the clone invocation. -/
def isCloneEvent : Event → Bool
  | Event.run c => c == git_clone_cmd
  | Event.log _ _ => false

/-- Whether an event is an ERROR-level log that carries actual message
content (a string rather than Python `None`). -/
def errorLogHasMsg : Event → Bool
  | Event.log 40 (some _) => true
  | _ => false

/-- The path `p` ends in the final component `last`: some prefix followed
by `last`. -/
def pathEndsIn (p last : String) : Prop := ∃ pre, p = pre ++ last

/-- Whether an `Except` result is a normal return. -/
def resOk {α : Type} (r : Except Err α) : Bool :=
  match r with
  | Except.ok _ => true
  | Except.error _ => false

/-- A computation that never changes which directories exist. -/
def PreservesDirs {α : Type} (m : M α) : Prop := ∀ s, (m s).2.dirs = s.dirs

/-- A computation that never removes the directory `x`. -/
def KeepsDir (x : String) {α : Type} (m : M α) : Prop :=
  ∀ s, x ∈ s.dirs → x ∈ (m s).2.dirs

/-- Every event in the final trace was already present or satisfies `P`. -/
def EventsPred (P : Event → Prop) {α : Type} (m : M α) : Prop :=
  ∀ s e, e ∈ (m s).2.events → e ∈ s.events ∨ P e

/-- A computation after which every existing directory already existed
before: it may delete directories but creates none that survive it. -/
def AddsNoDirs {α : Type} (m : M α) : Prop :=
  ∀ s d, d ∈ (m s).2.dirs → d ∈ s.dirs

/-- A concrete run configuration for evaluations: no environment overrides,
every subprocess succeeds, temporary names `/tmp/wd0` then `/tmp/bd1`,
home directory `/home/user`. -/
def okConfig : Config :=
  { env := fun _ => none
    exitCode := fun _ => 0
    tmpName := fun n => if n = 0 then "/tmp/wd0" else "/tmp/bd1"
    home := "/home/user" }

/-- A concrete starting state: the process sits in `/work`, and `/work` and
`/srcdir` exist. -/
def startSys : Sys :=
  { cwd := "/work", dirs := ["/work", "/srcdir"], tmpCounter := 0, events := [] }

/-- Like `okConfig` but the configure command fails: the exit-code oracle
returns 1 exactly for commands carrying the fixed build-type flag (only the
configure invocation does). -/
def confFailConfig : Config :=
  { env := fun _ => none
    exitCode := fun cmd => if "-DCMAKE_BUILD_TYPE=Release" ∈ cmd then 1 else 0
    tmpName := fun n => if n = 0 then "/tmp/wd0" else "/tmp/bd1"
    home := "/home/user" }

/-- Like `okConfig` but the build step fails: exit code 1 exactly for
`cmake --build .`. -/
def buildFailConfig : Config :=
  { env := fun _ => none
    exitCode := fun cmd => if cmd = ["cmake", "--build", "."] then 1 else 0
    tmpName := fun n => if n = 0 then "/tmp/wd0" else "/tmp/bd1"
    home := "/home/user" }

/-- Like `okConfig` but the clone fails: exit code 1 exactly for commands
containing the token `clone`. -/
def cloneFailConfig : Config :=
  { env := fun _ => none
    exitCode := fun cmd => if "clone" ∈ cmd then 1 else 0
    tmpName := fun n => if n = 0 then "/tmp/wd0" else "/tmp/bd1"
    home := "/home/user" }

/-- Like `okConfig` but with `GIT_EXECUTABLE=/alt/git` set in the
environment. -/
def gitOverrideConfig : Config :=
  { env := fun k => if k = "GIT_EXECUTABLE" then some "/alt/git" else none
    exitCode := fun _ => 0
    tmpName := fun n => if n = 0 then "/tmp/wd0" else "/tmp/bd1"
    home := "/home/user" }

theorem processExitCode_of_not_ok {α : Type} {r : Except Err α}
    (h : resOk r = false) : processExitCode r = 1 := by
  cases r with
  | ok a => simp [resOk] at h
  | error e => rfl

theorem bind_eq_ok {α β : Type} {x : M α} {f : α → M β} {s s1 : Sys} {a : α}
    (h : x s = (Except.ok a, s1)) : M.bind x f s = f a s1 := by
  simp [M.bind, h]

theorem bind_eq_error {α β : Type} {x : M α} (f : α → M β) {s s1 : Sys} {e : Err}
    (h : x s = (Except.error e, s1)) : M.bind x f s = (Except.error e, s1) := by
  simp [M.bind, h]

theorem tryFinally_snd {α : Type} (body : M α) (fin : M Unit) (s : Sys) :
    (M.tryFinally body fin s).2 = (fin (body s).2).2 := by
  unfold M.tryFinally
  rcases h : body s with ⟨r, s1⟩
  cases r <;> rcases hf : fin s1 with ⟨rf, s2⟩ <;> cases rf <;> simp [h, hf]

theorem tryFinally_not_ok {α : Type} {body : M α} {fin : M Unit} {s : Sys}
    (h : resOk (body s).1 = false) :
    resOk ((M.tryFinally body fin) s).1 = false := by
  unfold M.tryFinally
  rcases hb : body s with ⟨r, s1⟩
  rw [hb] at h
  cases r with
  | ok a => simp [resOk] at h
  | error e =>
      rcases hf : fin s1 with ⟨rf, s2⟩
      cases rf <;> simp [hb, hf, resOk]

theorem bind_not_ok_left {α β : Type} {x : M α} (f : α → M β) {s : Sys}
    (h : resOk (x s).1 = false) : resOk ((M.bind x f) s).1 = false := by
  unfold M.bind
  rcases hx : x s with ⟨r, s1⟩
  rw [hx] at h
  cases r with
  | ok a => simp [resOk] at h
  | error e => simp [resOk]

theorem bind_isOk {α β : Type} {x : M α} {f : α → M β} {s : Sys}
    (h : resOk ((M.bind x f) s).1 = true) :
    ∃ a s1, x s = (Except.ok a, s1) ∧ resOk ((f a s1)).1 = true := by
  unfold M.bind at h
  rcases hx : x s with ⟨r, s1⟩
  rw [hx] at h
  cases r with
  | ok a => exact ⟨a, s1, rfl, h⟩
  | error e => simp [resOk] at h

theorem tryFinally_isOk {α : Type} {body : M α} {fin : M Unit} {s : Sys}
    (h : resOk ((M.tryFinally body fin) s).1 = true) :
    ∃ a s1, body s = (Except.ok a, s1) := by
  unfold M.tryFinally at h
  rcases hb : body s with ⟨r, s1⟩
  rw [hb] at h
  cases r with
  | ok a => exact ⟨a, s1, rfl⟩
  | error e =>
      rcases hf : fin s1 with ⟨rf, s2⟩
      cases rf <;> simp [hf, resOk] at h

theorem chdir_eq_of_mem {p : String} {s : Sys} (h : p ∈ s.dirs) :
    chdir p s = (Except.ok (), { s with cwd := p }) := by
  simp [chdir, h]

theorem chdir_eq_of_not_mem {p : String} {s : Sys} (h : p ∉ s.dirs) :
    chdir p s = (Except.error (Err.fileNotFoundError p), s) := by
  simp [chdir, h]

theorem chdir_events (p : String) (s : Sys) : (chdir p s).2.events = s.events := by
  unfold chdir
  by_cases h : p ∈ s.dirs <;> simp [h]

theorem chdir_dirs (p : String) (s : Sys) : (chdir p s).2.dirs = s.dirs := by
  unfold chdir
  by_cases h : p ∈ s.dirs <;> simp [h]

theorem mkTempDir_eq (C : Config) (s : Sys) :
    mkTempDir C s =
      (Except.ok (C.tmpName s.tmpCounter),
       { s with dirs := s.dirs ++ [C.tmpName s.tmpCounter],
                tmpCounter := s.tmpCounter + 1 }) := rfl

theorem rmtree_eq (p : String) (s : Sys) :
    rmtree p s = (Except.ok (), { s with dirs := s.dirs.filter (fun d => d != p) }) :=
  rfl

theorem cd_eq_of_mem {α : Type} (C : Config) (nd : String) (body : M α) (s : Sys)
    (h : expanduser C.home nd ∈ s.dirs) :
    cd C nd body s =
      M.tryFinally body (chdir s.cwd) { s with cwd := expanduser C.home nd } := by
  unfold cd
  rw [bind_eq_ok (show getcwd s = (Except.ok s.cwd, s) from rfl)]
  unfold M.tryFinally
  rw [bind_eq_ok (chdir_eq_of_mem h)]

theorem cd_eq_of_not_mem {α : Type} (C : Config) (nd : String) (body : M α) (s : Sys)
    (h : expanduser C.home nd ∉ s.dirs) (hc : s.cwd ∈ s.dirs) :
    cd C nd body s =
      (Except.error (Err.fileNotFoundError (expanduser C.home nd)), s) := by
  unfold cd
  rw [bind_eq_ok (show getcwd s = (Except.ok s.cwd, s) from rfl)]
  unfold M.tryFinally
  rw [bind_eq_error _ (chdir_eq_of_not_mem h)]
  simp [chdir_eq_of_mem hc]

theorem preservesDirs_keepsDir {α : Type} {m : M α} (h : PreservesDirs m)
    (x : String) : KeepsDir x m := by
  intro s hx
  rw [h s]
  exact hx

theorem preservesDirs_pure {α : Type} (a : α) : PreservesDirs (M.pure a) :=
  fun _ => rfl

theorem preservesDirs_throw {α : Type} (e : Err) :
    PreservesDirs (M.throw e (α := α)) :=
  fun _ => rfl

theorem preservesDirs_bind {α β : Type} {x : M α} {f : α → M β}
    (hx : PreservesDirs x) (hf : ∀ a, PreservesDirs (f a)) :
    PreservesDirs (M.bind x f) := by
  intro s
  unfold M.bind
  rcases h : x s with ⟨r, s1⟩
  have hd : s1.dirs = s.dirs := by
    have := hx s
    rw [h] at this
    exact this
  cases r with
  | ok a => rw [hf a s1, hd]
  | error e => exact hd

theorem preservesDirs_tryFinally {α : Type} {body : M α} {fin : M Unit}
    (hb : PreservesDirs body) (hf : PreservesDirs fin) :
    PreservesDirs (M.tryFinally body fin) := by
  intro s
  rw [tryFinally_snd, hf, hb]

theorem preservesDirs_getcwd : PreservesDirs getcwd := fun _ => rfl

theorem preservesDirs_chdir (p : String) : PreservesDirs (chdir p) := by
  intro s
  unfold chdir
  by_cases h : p ∈ s.dirs <;> simp [h]

theorem preservesDirs_logEvent (level : Nat) (msg : Option String) :
    PreservesDirs (logEvent level msg) := fun _ => rfl

theorem preservesDirs_subprocessRun (C : Config) (cmd : List String) :
    PreservesDirs (subprocessRun C cmd) := fun _ => rfl

theorem preservesDirs_checkReturncode (cmd : List String) (r : RunResult) :
    PreservesDirs (checkReturncode cmd r) := by
  intro s
  unfold checkReturncode
  by_cases h : r.returncode = 0 <;> simp [h, M.pure, M.throw]

theorem preservesDirs_ite {α : Type} {c : Prop} [Decidable c] {x y : M α}
    (hx : PreservesDirs x) (hy : PreservesDirs y) :
    PreservesDirs (if c then x else y) := by
  by_cases h : c
  · rw [if_pos h]; exact hx
  · rw [if_neg h]; exact hy

theorem preservesDirs_build_steps (C : Config) (src : String)
    (gen ipf : Option String) : PreservesDirs (build_steps C src gen ipf) := by
  unfold build_steps
  refine preservesDirs_bind (preservesDirs_logEvent _ _) (fun _ => ?_)
  refine preservesDirs_bind (preservesDirs_subprocessRun _ _) (fun cmake => ?_)
  refine preservesDirs_bind
    (preservesDirs_ite
      (preservesDirs_bind (preservesDirs_logEvent _ _)
        (fun _ => preservesDirs_checkReturncode _ _))
      (preservesDirs_pure _)) (fun _ => ?_)
  refine preservesDirs_bind (preservesDirs_logEvent _ _) (fun _ => ?_)
  refine preservesDirs_bind (preservesDirs_subprocessRun _ _) (fun build => ?_)
  refine preservesDirs_bind
    (preservesDirs_ite
      (preservesDirs_bind (preservesDirs_logEvent _ _)
        (fun _ => preservesDirs_checkReturncode _ _))
      (preservesDirs_pure _)) (fun _ => ?_)
  refine preservesDirs_bind (preservesDirs_subprocessRun _ _) (fun install => ?_)
  exact preservesDirs_ite
    (preservesDirs_bind (preservesDirs_logEvent _ _)
      (fun _ => preservesDirs_checkReturncode _ _))
    (preservesDirs_pure _)

theorem preservesDirs_cd {α : Type} (C : Config) (nd : String) {body : M α}
    (h : PreservesDirs body) : PreservesDirs (cd C nd body) := by
  unfold cd
  exact preservesDirs_bind preservesDirs_getcwd (fun prev =>
    preservesDirs_tryFinally
      (preservesDirs_bind (preservesDirs_chdir _) (fun _ => h))
      (preservesDirs_chdir _))

theorem preservesDirs_download (C : Config) : PreservesDirs (download_llvm C) := by
  unfold download_llvm
  exact preservesDirs_bind (preservesDirs_subprocessRun _ _) (fun r =>
    preservesDirs_bind (preservesDirs_checkReturncode _ _) (fun _ =>
      preservesDirs_bind preservesDirs_getcwd (fun cwd => preservesDirs_pure _)))

theorem preservesDirs_resolve (C : Config) (sources : Option String) :
    PreservesDirs (resolve_source C sources) := by
  unfold resolve_source
  exact preservesDirs_ite (preservesDirs_pure _) (preservesDirs_download C)

theorem build_llvm_dirs (C : Config) (src : String) (gen bd ipf : Option String)
    (s : Sys) :
    ((build_llvm C src gen bd ipf) s).2.dirs =
      if bd.getD "" = "" then
        s.dirs.filter (fun d => d != C.tmpName s.tmpCounter)
      else s.dirs := by
  unfold build_llvm build_directory
  by_cases h : bd.getD "" = ""
  · rw [if_pos h, if_pos h]
    rw [bind_eq_ok (mkTempDir_eq C s), tryFinally_snd]
    have hcd := preservesDirs_cd C (C.tmpName s.tmpCounter)
      (preservesDirs_build_steps C src gen ipf)
    rw [rmtree_eq]
    simp only [List.filter_append, List.filter]
    rw [hcd]
    simp [List.filter_append, List.filter]
  · rw [if_neg h, if_neg h]
    exact preservesDirs_cd C _ (preservesDirs_build_steps C src gen ipf) s

theorem keepsDir_bind {x : String} {α β : Type} {m : M α} {f : α → M β}
    (hm : KeepsDir x m) (hf : ∀ a, KeepsDir x (f a)) : KeepsDir x (M.bind m f) := by
  intro s hx
  unfold M.bind
  rcases h : m s with ⟨r, s1⟩
  have h1 : x ∈ s1.dirs := by
    have := hm s hx
    rw [h] at this
    exact this
  cases r with
  | ok a => exact hf a s1 h1
  | error e => exact h1

theorem keepsDir_tryFinally {x : String} {α : Type} {body : M α} {fin : M Unit}
    (hb : KeepsDir x body) (hf : KeepsDir x fin) :
    KeepsDir x (M.tryFinally body fin) := by
  intro s hx
  rw [tryFinally_snd]
  exact hf _ (hb s hx)

theorem keepsDir_cd {x : String} {α : Type} (C : Config) (nd : String) {body : M α}
    (h : KeepsDir x body) : KeepsDir x (cd C nd body) := by
  unfold cd
  exact keepsDir_bind (preservesDirs_keepsDir preservesDirs_getcwd x) (fun prev =>
    keepsDir_tryFinally
      (keepsDir_bind (preservesDirs_keepsDir (preservesDirs_chdir _) x) (fun _ => h))
      (preservesDirs_keepsDir (preservesDirs_chdir _) x))

theorem keepsDir_build_llvm {x : String} (C : Config) (src : String)
    (gen bd ipf : Option String) (hfresh : ∀ n, C.tmpName n ≠ x) :
    KeepsDir x (build_llvm C src gen bd ipf) := by
  intro s hx
  rw [build_llvm_dirs]
  by_cases h : bd.getD "" = ""
  · rw [if_pos h]
    refine List.mem_filter.2 ⟨hx, ?_⟩
    simp only [bne_iff_ne, ne_eq, decide_eq_true_eq]
    exact fun hexx => (hfresh s.tmpCounter) hexx.symm
  · rw [if_neg h]
    exact hx

theorem keepsDir_resolve {x : String} (C : Config) (sources : Option String) :
    KeepsDir x (resolve_source C sources) :=
  preservesDirs_keepsDir (preservesDirs_resolve C sources) x

theorem rmtree_events (p : String) (s : Sys) : (rmtree p s).2.events = s.events := rfl

theorem rmtree_dirs (p : String) (s : Sys) :
    (rmtree p s).2.dirs = s.dirs.filter (fun d => d != p) := rfl

theorem build_steps_conf_fail (C : Config) (src : String) (gen ipf : Option String)
    (s : Sys)
    (h : C.exitCode (cmake_cmd_line (which C "cmake") src gen ipf) ≠ 0) :
    build_steps C src gen ipf s =
      (Except.error (Err.calledProcessError
          (cmake_cmd_line (which C "cmake") src gen ipf)
          (C.exitCode (cmake_cmd_line (which C "cmake") src gen ipf))),
       { s with events := s.events ++
          [Event.log 20 (some (joinSpace (cmake_cmd_line (which C "cmake") src gen ipf))),
           Event.run (cmake_cmd_line (which C "cmake") src gen ipf),
           Event.log 40 none] }) := by
  simp [build_steps, M.bind, logEvent, subprocessRun, checkReturncode,
    M.pure, M.throw, h, List.append_assoc]

theorem build_steps_build_fail (C : Config) (src : String) (gen ipf : Option String)
    (s : Sys)
    (h0 : C.exitCode (cmake_cmd_line (which C "cmake") src gen ipf) = 0)
    (h : C.exitCode (build_cmd_line (which C "cmake")) ≠ 0) :
    build_steps C src gen ipf s =
      (Except.error (Err.calledProcessError (build_cmd_line (which C "cmake"))
          (C.exitCode (build_cmd_line (which C "cmake")))),
       { s with events := s.events ++
          [Event.log 20 (some (joinSpace (cmake_cmd_line (which C "cmake") src gen ipf))),
           Event.run (cmake_cmd_line (which C "cmake") src gen ipf),
           Event.log 20 (some (joinSpace (build_cmd_line (which C "cmake")))),
           Event.run (build_cmd_line (which C "cmake")),
           Event.log 40 none] }) := by
  simp [build_steps, M.bind, logEvent, subprocessRun, checkReturncode,
    M.pure, M.throw, h0, h, List.append_assoc]

theorem build_steps_install_fail (C : Config) (src : String) (gen ipf : Option String)
    (s : Sys)
    (h0 : C.exitCode (cmake_cmd_line (which C "cmake") src gen ipf) = 0)
    (h1 : C.exitCode (build_cmd_line (which C "cmake")) = 0)
    (h : C.exitCode (install_cmd_line (which C "cmake")) ≠ 0) :
    build_steps C src gen ipf s =
      (Except.error (Err.calledProcessError (install_cmd_line (which C "cmake"))
          (C.exitCode (install_cmd_line (which C "cmake")))),
       { s with events := s.events ++
          [Event.log 20 (some (joinSpace (cmake_cmd_line (which C "cmake") src gen ipf))),
           Event.run (cmake_cmd_line (which C "cmake") src gen ipf),
           Event.log 20 (some (joinSpace (build_cmd_line (which C "cmake")))),
           Event.run (build_cmd_line (which C "cmake")),
           Event.run (install_cmd_line (which C "cmake")),
           Event.log 40 none] }) := by
  simp [build_steps, M.bind, logEvent, subprocessRun, checkReturncode,
    M.pure, M.throw, h0, h1, h, List.append_assoc]

theorem build_steps_ok (C : Config) (src : String) (gen ipf : Option String)
    (s : Sys)
    (h0 : C.exitCode (cmake_cmd_line (which C "cmake") src gen ipf) = 0)
    (h1 : C.exitCode (build_cmd_line (which C "cmake")) = 0)
    (h2 : C.exitCode (install_cmd_line (which C "cmake")) = 0) :
    build_steps C src gen ipf s =
      (Except.ok (),
       { s with events := s.events ++
          [Event.log 20 (some (joinSpace (cmake_cmd_line (which C "cmake") src gen ipf))),
           Event.run (cmake_cmd_line (which C "cmake") src gen ipf),
           Event.log 20 (some (joinSpace (build_cmd_line (which C "cmake")))),
           Event.run (build_cmd_line (which C "cmake")),
           Event.run (install_cmd_line (which C "cmake"))] }) := by
  simp [build_steps, M.bind, logEvent, subprocessRun, checkReturncode,
    M.pure, M.throw, h0, h1, h2, List.append_assoc]

theorem download_llvm_ok (C : Config) (s : Sys) (h : C.exitCode git_clone_cmd = 0) :
    download_llvm C s =
      (Except.ok (joinPath s.cwd "llvm-project"),
       { s with events := s.events ++ [Event.run git_clone_cmd] }) := by
  simp [download_llvm, M.bind, subprocessRun, checkReturncode, getcwd,
    M.pure, M.throw, h]

theorem download_llvm_fail (C : Config) (s : Sys) (h : C.exitCode git_clone_cmd ≠ 0) :
    download_llvm C s =
      (Except.error (Err.calledProcessError git_clone_cmd (C.exitCode git_clone_cmd)),
       { s with events := s.events ++ [Event.run git_clone_cmd] }) := by
  simp [download_llvm, M.bind, subprocessRun, checkReturncode, getcwd,
    M.pure, M.throw, h]

theorem cd_events {α : Type} (C : Config) (nd : String) (body : M α) (s : Sys) :
    ((cd C nd body) s).2.events =
      if expanduser C.home nd ∈ s.dirs then
        (body { s with cwd := expanduser C.home nd }).2.events
      else s.events := by
  unfold cd
  rw [bind_eq_ok (show getcwd s = (Except.ok s.cwd, s) from rfl), tryFinally_snd,
    chdir_events]
  by_cases h : expanduser C.home nd ∈ s.dirs
  · rw [if_pos h, bind_eq_ok (chdir_eq_of_mem h)]
  · rw [if_neg h, bind_eq_error _ (chdir_eq_of_not_mem h)]

theorem build_directory_events {α : Type} (C : Config) (bd : Option String)
    (body : String → M α) (s : Sys) :
    ((build_directory C bd body) s).2.events =
      if bd.getD "" = "" then
        (body (C.tmpName s.tmpCounter)
          { s with dirs := s.dirs ++ [C.tmpName s.tmpCounter],
                   tmpCounter := s.tmpCounter + 1 }).2.events
      else (body (expanduser C.home (bd.getD "")) s).2.events := by
  unfold build_directory
  by_cases h : bd.getD "" = ""
  · rw [if_pos h, if_pos h, bind_eq_ok (mkTempDir_eq C s), tryFinally_snd,
      rmtree_events]
  · rw [if_neg h, if_neg h]

theorem withTemporaryDirectory_eq {α : Type} (C : Config) (body : String → M α)
    (s : Sys) :
    (withTemporaryDirectory C body) s =
      M.tryFinally (body (C.tmpName s.tmpCounter)) (rmtree (C.tmpName s.tmpCounter))
        { s with dirs := s.dirs ++ [C.tmpName s.tmpCounter],
                 tmpCounter := s.tmpCounter + 1 } := by
  unfold withTemporaryDirectory
  rw [bind_eq_ok (mkTempDir_eq C s)]

theorem tryFinally_rmtree_fst {α : Type} (body : M α) (p : String) (s : Sys) :
    ((M.tryFinally body (rmtree p)) s).1 = (body s).1 := by
  unfold M.tryFinally
  rcases h : body s with ⟨r, s1⟩
  cases r <;> simp [h, rmtree_eq]

theorem rmtree_cwd (p : String) (s : Sys) : (rmtree p s).2.cwd = s.cwd := rfl

theorem cd_dirs {α : Type} (C : Config) (nd : String) (body : M α) (s : Sys) :
    ((cd C nd body) s).2.dirs =
      if expanduser C.home nd ∈ s.dirs then
        (body { s with cwd := expanduser C.home nd }).2.dirs
      else s.dirs := by
  unfold cd
  rw [bind_eq_ok (show getcwd s = (Except.ok s.cwd, s) from rfl), tryFinally_snd,
    chdir_dirs]
  by_cases h : expanduser C.home nd ∈ s.dirs
  · rw [if_pos h, bind_eq_ok (chdir_eq_of_mem h)]
  · rw [if_neg h, bind_eq_error _ (chdir_eq_of_not_mem h)]

theorem withTemporaryDirectory_events {α : Type} (C : Config) (body : String → M α)
    (s : Sys) :
    ((withTemporaryDirectory C body) s).2.events =
      (body (C.tmpName s.tmpCounter)
        { s with dirs := s.dirs ++ [C.tmpName s.tmpCounter],
                 tmpCounter := s.tmpCounter + 1 }).2.events := by
  rw [withTemporaryDirectory_eq, tryFinally_snd, rmtree_events]

theorem eventsPred_mono {P Q : Event → Prop} {α : Type} {m : M α}
    (h : EventsPred P m) (hpq : ∀ e, P e → Q e) : EventsPred Q m := by
  intro s e he
  rcases h s e he with h1 | h1
  · left; exact h1
  · right; exact hpq e h1

theorem eventsPred_of_events_eq {P : Event → Prop} {α : Type} {m : M α}
    (h : ∀ s, (m s).2.events = s.events) : EventsPred P m := by
  intro s e he
  rw [h s] at he
  left
  exact he

theorem eventsPred_pure {P : Event → Prop} {α : Type} (a : α) :
    EventsPred P (M.pure a) :=
  eventsPred_of_events_eq (fun _ => rfl)

theorem eventsPred_throw {P : Event → Prop} {α : Type} (e : Err) :
    EventsPred P (M.throw e (α := α)) :=
  eventsPred_of_events_eq (fun _ => rfl)

theorem eventsPred_getcwd {P : Event → Prop} : EventsPred P getcwd :=
  eventsPred_of_events_eq (fun _ => rfl)

theorem eventsPred_chdir {P : Event → Prop} (p : String) : EventsPred P (chdir p) :=
  eventsPred_of_events_eq (fun s => chdir_events p s)

theorem eventsPred_mkTempDir {P : Event → Prop} (C : Config) :
    EventsPred P (mkTempDir C) :=
  eventsPred_of_events_eq (fun _ => rfl)

theorem eventsPred_rmtree {P : Event → Prop} (p : String) : EventsPred P (rmtree p) :=
  eventsPred_of_events_eq (fun _ => rfl)

theorem eventsPred_checkReturncode {P : Event → Prop} (cmd : List String)
    (r : RunResult) : EventsPred P (checkReturncode cmd r) := by
  refine eventsPred_of_events_eq (fun s => ?_)
  unfold checkReturncode
  by_cases h : r.returncode = 0 <;> simp [h, M.pure, M.throw]

theorem eventsPred_logEvent {P : Event → Prop} {level : Nat} {msg : Option String}
    (hP : P (Event.log level msg)) : EventsPred P (logEvent level msg) := by
  intro s e he
  unfold logEvent at he
  simp only [List.mem_append, List.mem_singleton] at he
  rcases he with h1 | h1
  · left; exact h1
  · right; rw [h1]; exact hP

theorem eventsPred_subprocessRun {P : Event → Prop} {C : Config} {cmd : List String}
    (hP : P (Event.run cmd)) : EventsPred P (subprocessRun C cmd) := by
  intro s e he
  unfold subprocessRun at he
  simp only [List.mem_append, List.mem_singleton] at he
  rcases he with h1 | h1
  · left; exact h1
  · right; rw [h1]; exact hP

theorem eventsPred_bind {P : Event → Prop} {α β : Type} {m : M α} {f : α → M β}
    (hm : EventsPred P m) (hf : ∀ a, EventsPred P (f a)) :
    EventsPred P (M.bind m f) := by
  intro s e he
  unfold M.bind at he
  rcases hx : m s with ⟨r, s1⟩
  rw [hx] at he
  have hs1 : ∀ ev, ev ∈ s1.events → ev ∈ s.events ∨ P ev := by
    intro ev hev
    refine hm s ev ?_
    rw [hx]
    exact hev
  cases r with
  | ok a =>
      rcases hf a s1 e he with h1 | h1
      · exact hs1 e h1
      · right; exact h1
  | error er => exact hs1 e he

theorem eventsPred_tryFinally {P : Event → Prop} {α : Type} {body : M α}
    {fin : M Unit} (hb : EventsPred P body) (hf : EventsPred P fin) :
    EventsPred P (M.tryFinally body fin) := by
  intro s e he
  rw [tryFinally_snd] at he
  rcases hf _ e he with h1 | h1
  · exact hb s e h1
  · right; exact h1

theorem eventsPred_ite {P : Event → Prop} {α : Type} {c : Prop} [Decidable c]
    {x y : M α} (hx : EventsPred P x) (hy : EventsPred P y) :
    EventsPred P (if c then x else y) := by
  by_cases h : c
  · rw [if_pos h]; exact hx
  · rw [if_neg h]; exact hy

theorem eventsPred_cd {P : Event → Prop} {α : Type} (C : Config) (nd : String)
    {body : M α} (h : EventsPred P body) : EventsPred P (cd C nd body) := by
  intro s e he
  rw [cd_events] at he
  by_cases hm : expanduser C.home nd ∈ s.dirs
  · rw [if_pos hm] at he
    rcases h { s with cwd := expanduser C.home nd } e he with h1 | h1
    · left; exact h1
    · right; exact h1
  · rw [if_neg hm] at he
    left
    exact he

theorem eventsPred_build_directory {P : Event → Prop} {α : Type} (C : Config)
    (bd : Option String) {body : String → M α}
    (h : ∀ name, EventsPred P (body name)) :
    EventsPred P (build_directory C bd body) := by
  intro s e he
  rw [build_directory_events] at he
  by_cases hb : bd.getD "" = ""
  · rw [if_pos hb] at he
    rcases h (C.tmpName s.tmpCounter)
      { s with dirs := s.dirs ++ [C.tmpName s.tmpCounter],
               tmpCounter := s.tmpCounter + 1 } e he with h1 | h1
    · left; exact h1
    · right; exact h1
  · rw [if_neg hb] at he
    exact h _ s e he

theorem eventsPred_withTemporaryDirectory {P : Event → Prop} {α : Type} (C : Config)
    {body : String → M α} (h : ∀ name, EventsPred P (body name)) :
    EventsPred P (withTemporaryDirectory C body) := by
  intro s e he
  rw [withTemporaryDirectory_events] at he
  rcases h (C.tmpName s.tmpCounter)
    { s with dirs := s.dirs ++ [C.tmpName s.tmpCounter],
             tmpCounter := s.tmpCounter + 1 } e he with h1 | h1
  · left; exact h1
  · right; exact h1

/-- Every event of the three build steps is a log record or one of the three
fixed command vectors (all invoked with the resolved cmake executable). -/
theorem eventsPred_build_steps (C : Config) (src : String)
    (gen ipf : Option String) :
    EventsPred (fun e =>
      (∃ l msg, e = Event.log l msg) ∨
      e = Event.run (cmake_cmd_line (which C "cmake") src gen ipf) ∨
      e = Event.run (build_cmd_line (which C "cmake")) ∨
      e = Event.run (install_cmd_line (which C "cmake")))
      (build_steps C src gen ipf) := by
  unfold build_steps
  refine eventsPred_bind (eventsPred_logEvent (Or.inl ⟨_, _, rfl⟩)) (fun _ => ?_)
  refine eventsPred_bind (eventsPred_subprocessRun (Or.inr (Or.inl rfl)))
    (fun cmake => ?_)
  refine eventsPred_bind
    (eventsPred_ite
      (eventsPred_bind (eventsPred_logEvent (Or.inl ⟨_, _, rfl⟩))
        (fun _ => eventsPred_checkReturncode _ _))
      (eventsPred_pure _)) (fun _ => ?_)
  refine eventsPred_bind (eventsPred_logEvent (Or.inl ⟨_, _, rfl⟩)) (fun _ => ?_)
  refine eventsPred_bind
    (eventsPred_subprocessRun (Or.inr (Or.inr (Or.inl rfl)))) (fun build => ?_)
  refine eventsPred_bind
    (eventsPred_ite
      (eventsPred_bind (eventsPred_logEvent (Or.inl ⟨_, _, rfl⟩))
        (fun _ => eventsPred_checkReturncode _ _))
      (eventsPred_pure _)) (fun _ => ?_)
  refine eventsPred_bind
    (eventsPred_subprocessRun (Or.inr (Or.inr (Or.inr rfl)))) (fun install => ?_)
  exact eventsPred_ite
    (eventsPred_bind (eventsPred_logEvent (Or.inl ⟨_, _, rfl⟩))
      (fun _ => eventsPred_checkReturncode _ _))
    (eventsPred_pure _)

/-- Under a failing configure exit code, every event of the build steps is a
log record or the configure invocation itself: the build and install
commands are never run. -/
theorem eventsPred_build_steps_conf_fail (C : Config) (src : String)
    (gen ipf : Option String)
    (h : C.exitCode (cmake_cmd_line (which C "cmake") src gen ipf) ≠ 0) :
    EventsPred (fun e =>
      (∃ l msg, e = Event.log l msg) ∨
      e = Event.run (cmake_cmd_line (which C "cmake") src gen ipf))
      (build_steps C src gen ipf) := by
  intro s e he
  rw [build_steps_conf_fail C src gen ipf s h] at he
  simp only [List.mem_append, List.mem_cons, List.mem_singleton,
    List.not_mem_nil] at he
  rcases he with h1 | h1 | h1 | h1 | h1
  · left; exact h1
  · right; left; exact ⟨_, _, h1⟩
  · right; right; exact h1
  · right; left; exact ⟨_, _, h1⟩
  · exact absurd h1 (by simp)

theorem bind_logEvent {β : Type} (level : Nat) (msg : Option String)
    (f : Unit → M β) (s : Sys) :
    M.bind (logEvent level msg) f s =
      f () { s with events := s.events ++ [Event.log level msg] } := rfl

theorem resolve_source_truthy (C : Config) {p : String} (hp : p ≠ "") :
    resolve_source C (some p) = M.pure (expanduser C.home p) := by
  unfold resolve_source
  rw [if_pos]
  · rfl
  · simpa using hp

theorem resolve_source_none (C : Config) : resolve_source C none = download_llvm C := by
  unfold resolve_source
  rw [if_neg]
  simp

theorem cmake_cmd_line_get1 (exe src : String) (gen ipf : Option String) :
    (cmake_cmd_line exe src gen ipf).get? 1 = some "-DCMAKE_BUILD_TYPE=Release" := by
  unfold cmake_cmd_line fixed_cmake_flags
  by_cases hg : gen.getD "" ≠ "" <;> by_cases hi : ipf.getD "" ≠ "" <;>
    simp [hg, hi]

theorem mem_build_type_cmake_cmd_line (exe src : String) (gen ipf : Option String) :
    "-DCMAKE_BUILD_TYPE=Release" ∈ cmake_cmd_line exe src gen ipf := by
  unfold cmake_cmd_line fixed_cmake_flags
  by_cases hg : gen.getD "" ≠ "" <;> by_cases hi : ipf.getD "" ≠ "" <;>
    simp [hg, hi]

theorem build_cmd_ne_cmake_cmd_line (exe exe2 src : String) (gen ipf : Option String) :
    build_cmd_line exe ≠ cmake_cmd_line exe2 src gen ipf := by
  intro h
  have h1 := cmake_cmd_line_get1 exe2 src gen ipf
  rw [← h] at h1
  simp [build_cmd_line] at h1

theorem install_cmd_ne_cmake_cmd_line (exe exe2 src : String)
    (gen ipf : Option String) :
    install_cmd_line exe ≠ cmake_cmd_line exe2 src gen ipf := by
  intro h
  have h1 := cmake_cmd_line_get1 exe2 src gen ipf
  rw [← h] at h1
  simp [install_cmd_line] at h1

theorem clone_ne_cmake_cmd_line (exe2 src : String) (gen ipf : Option String) :
    git_clone_cmd ≠ cmake_cmd_line exe2 src gen ipf := by
  intro h
  have h1 := cmake_cmd_line_get1 exe2 src gen ipf
  rw [← h] at h1
  simp [git_clone_cmd] at h1

theorem build_cmd_ne_install_cmd (exe exe2 : String) :
    build_cmd_line exe ≠ install_cmd_line exe2 := by
  intro h
  have := congrArg List.length h
  simp [build_cmd_line, install_cmd_line] at this

theorem clone_ne_build_cmd (exe : String) : git_clone_cmd ≠ build_cmd_line exe := by
  intro h
  simp [git_clone_cmd, build_cmd_line] at h

theorem clone_ne_install_cmd (exe : String) : git_clone_cmd ≠ install_cmd_line exe := by
  intro h
  simp [git_clone_cmd, install_cmd_line] at h

theorem pathEndsIn_joinPath (a b : String) : pathEndsIn (joinPath a b) b := by
  unfold pathEndsIn joinPath
  by_cases h1 : strStartsWith b "/" = true
  · rw [if_pos h1]
    exact ⟨"", rfl⟩
  · rw [if_neg h1]
    by_cases h2 : a = ""
    · rw [if_pos h2]
      exact ⟨"", rfl⟩
    · rw [if_neg h2]
      by_cases h3 : strEndsWith a "/" = true
      · rw [if_pos h3]
        exact ⟨a, rfl⟩
      · rw [if_neg h3]
        exact ⟨a ++ "/", rfl⟩

theorem cd_not_ok {α : Type} (C : Config) (nd : String) {body : M α}
    (h : ∀ s1, resOk (body s1).1 = false) (s : Sys) :
    resOk ((cd C nd body) s).1 = false := by
  unfold cd
  rw [bind_eq_ok (show getcwd s = (Except.ok s.cwd, s) from rfl)]
  refine tryFinally_not_ok ?_
  by_cases hm : expanduser C.home nd ∈ s.dirs
  · rw [bind_eq_ok (chdir_eq_of_mem hm)]
    exact h _
  · rw [bind_eq_error _ (chdir_eq_of_not_mem hm)]
    rfl

theorem build_steps_not_ok_of_conf_fail (C : Config) (src : String)
    (gen ipf : Option String)
    (h : C.exitCode (cmake_cmd_line (which C "cmake") src gen ipf) ≠ 0) (s1 : Sys) :
    resOk ((build_steps C src gen ipf) s1).1 = false := by
  rw [build_steps_conf_fail C src gen ipf s1 h]
  rfl

theorem build_llvm_not_ok_of_conf_fail (C : Config) (src : String)
    (gen bd ipf : Option String) (s : Sys)
    (h : C.exitCode (cmake_cmd_line (which C "cmake") src gen ipf) ≠ 0) :
    resOk ((build_llvm C src gen bd ipf) s).1 = false := by
  unfold build_llvm build_directory
  by_cases hb : bd.getD "" = ""
  · rw [if_pos hb, bind_eq_ok (mkTempDir_eq C s), tryFinally_rmtree_fst]
    exact cd_not_ok C _ (build_steps_not_ok_of_conf_fail C src gen ipf h) _
  · rw [if_neg hb]
    exact cd_not_ok C _ (build_steps_not_ok_of_conf_fail C src gen ipf h) s

/-- Under a failing configure exit code every event of `build_llvm` is a log
record or the configure invocation. -/
theorem eventsPred_build_llvm_conf_fail (C : Config) (src : String)
    (gen bd ipf : Option String)
    (h : C.exitCode (cmake_cmd_line (which C "cmake") src gen ipf) ≠ 0) :
    EventsPred (fun e =>
      (∃ l msg, e = Event.log l msg) ∨
      e = Event.run (cmake_cmd_line (which C "cmake") src gen ipf))
      (build_llvm C src gen bd ipf) :=
  eventsPred_build_directory C bd (fun name =>
    eventsPred_cd C name (eventsPred_build_steps_conf_fail C src gen ipf h))

/-- Under a failing build exit code every event of the build steps is a log
record, the configure invocation, or the build invocation - never the
install invocation. -/
theorem eventsPred_build_steps_build_fail (C : Config) (src : String)
    (gen ipf : Option String)
    (h : C.exitCode (build_cmd_line (which C "cmake")) ≠ 0) :
    EventsPred (fun e =>
      (∃ l msg, e = Event.log l msg) ∨
      e = Event.run (cmake_cmd_line (which C "cmake") src gen ipf) ∨
      e = Event.run (build_cmd_line (which C "cmake")))
      (build_steps C src gen ipf) := by
  by_cases h0 : C.exitCode (cmake_cmd_line (which C "cmake") src gen ipf) = 0
  · intro s e he
    rw [build_steps_build_fail C src gen ipf s h0 h] at he
    simp only [List.mem_append, List.mem_cons, List.mem_singleton,
      List.not_mem_nil] at he
    rcases he with h1 | h1 | h1 | h1 | h1 | h1 | h1
    · left; exact h1
    · right; left; exact ⟨_, _, h1⟩
    · right; right; left; exact h1
    · right; left; exact ⟨_, _, h1⟩
    · right; right; right; exact h1
    · right; left; exact ⟨_, _, h1⟩
    · exact absurd h1 (by simp)
  · refine eventsPred_mono (eventsPred_build_steps_conf_fail C src gen ipf h0) ?_
    intro e he
    rcases he with h1 | h1
    · left; exact h1
    · right; left; exact h1

theorem main_model_not_ok_of_conf_fail (C : Config)
    (sources gen bd pfx : Option String) (s : Sys)
    (h : ∀ srcv, C.exitCode (cmake_cmd_line (which C "cmake") srcv gen none) ≠ 0) :
    resOk ((main_model C sources gen bd pfx) s).1 = false := by
  unfold main_model withTemporaryDirectory
  rw [bind_eq_ok (mkTempDir_eq C s), tryFinally_rmtree_fst]
  refine cd_not_ok C _ (fun s2 => ?_) _
  rw [bind_logEvent]
  rcases hres : resolve_source C sources
      { s2 with events := s2.events ++ [Event.log 20
        (some ("Use " ++ C.tmpName s.tmpCounter ++ " as temporary directory"))] }
    with ⟨r, s4⟩
  cases r with
  | ok src =>
      rw [bind_eq_ok hres]
      exact build_llvm_not_ok_of_conf_fail C src gen bd none s4 (h src)
  | error e =>
      rw [bind_eq_error _ hres]
      rfl

theorem addsNoDirs_of_preservesDirs {α : Type} {m : M α} (h : PreservesDirs m) :
    AddsNoDirs m := by
  intro s d hd
  rw [h s] at hd
  exact hd

theorem addsNoDirs_bind {α β : Type} {m : M α} {f : α → M β}
    (hm : AddsNoDirs m) (hf : ∀ a, AddsNoDirs (f a)) : AddsNoDirs (M.bind m f) := by
  intro s d hd
  unfold M.bind at hd
  rcases hx : m s with ⟨r, s1⟩
  rw [hx] at hd
  have h1 : ∀ x, x ∈ s1.dirs → x ∈ s.dirs := by
    intro x hm1
    refine hm s x ?_
    rw [hx]
    exact hm1
  cases r with
  | ok a => exact h1 d (hf a s1 d hd)
  | error e => exact h1 d hd

theorem addsNoDirs_build_llvm (C : Config) (src : String)
    (gen bd ipf : Option String) : AddsNoDirs (build_llvm C src gen bd ipf) := by
  intro s d hd
  rw [build_llvm_dirs] at hd
  by_cases h : bd.getD "" = ""
  · rw [if_pos h] at hd
    exact List.mem_of_mem_filter hd
  · rw [if_neg h] at hd
    exact hd

theorem addsNoDirs_main_inner (C : Config) (sources gen bd : Option String)
    (wd : String) :
    AddsNoDirs (M.bind (logEvent 20 (some ("Use " ++ wd ++ " as temporary directory")))
      (fun _ => M.bind (resolve_source C sources)
        (fun src => build_llvm C src gen bd none))) :=
  addsNoDirs_bind (addsNoDirs_of_preservesDirs (preservesDirs_logEvent _ _))
    (fun _ => addsNoDirs_bind (addsNoDirs_of_preservesDirs (preservesDirs_resolve C sources))
      (fun src => addsNoDirs_build_llvm C src gen bd none))

/-- The scope body of `cd` having run, the saved directory still exists, so
the `finally` restore succeeds: the working directory after the scope exits
equals the one saved on entry - on success and on failure alike. -/
theorem cd_restores_cwd {α : Type} (C : Config) (nd : String) (body : M α) (s : Sys)
    (hcwd : s.cwd ∈ s.dirs) (hk : KeepsDir s.cwd body) :
    ((cd C nd body) s).2.cwd = s.cwd := by
  by_cases h : expanduser C.home nd ∈ s.dirs
  · rw [cd_eq_of_mem C nd body s h, tryFinally_snd]
    have hmem : s.cwd ∈ (body { s with cwd := expanduser C.home nd }).2.dirs :=
      hk { s with cwd := expanduser C.home nd } hcwd
    rw [chdir_eq_of_mem hmem]
  · rw [cd_eq_of_not_mem C nd body s h hcwd]

/-- The body of the main `cd` scope (log, resolve the source, build) never
removes a directory that is not one of the temporary names. -/
theorem keepsDir_main_inner {x : String} (C : Config) (sources gen bd : Option String)
    (wd : String) (hfresh : ∀ n, C.tmpName n ≠ x) :
    KeepsDir x (M.bind (logEvent 20 (some ("Use " ++ wd ++ " as temporary directory")))
      (fun _ => M.bind (resolve_source C sources)
        (fun src => build_llvm C src gen bd none))) :=
  keepsDir_bind (preservesDirs_keepsDir (preservesDirs_logEvent _ _) x)
    (fun _ => keepsDir_bind (keepsDir_resolve C sources)
      (fun src => keepsDir_build_llvm C src gen bd none hfresh))

/-- C1: the claim is that a run with `--generator Ninja --prefix /opt/llvm`
produces a configure command line with exactly one `-G Ninja` token pair AND
exactly one `-DCMAKE_INSTALL_PREFIX=/opt/llvm` token.  On the code, the
`-G Ninja` half holds but the prefix half fails: `__main__` (source lines
97-98) passes only the source, `args.generator` and `args.build_dir` to
`build_llvm`, never `args.prefix`, so `install_prefix` stays `None` and no
install-prefix token is emitted anywhere in the run - even though argparse
documents `--prefix` as "install prefix" and `build_llvm` supports it.
This theorem evaluates the modelled run at the failing input: the configure
invocation is in the trace, carries exactly one `-G Ninja` pair and one
Release flag, yet no event of the whole run carries the install-prefix
token. -/
theorem C1_main_drops_prefix_flag :
    Event.run (cmake_cmd_line "cmake" "/srcdir/llvm-project" (some "Ninja") none) ∈
      ((main_model okConfig (some "/srcdir/llvm-project") (some "Ninja") none
        (some "/opt/llvm")) startSys).2.events ∧
    countPair (cmake_cmd_line "cmake" "/srcdir/llvm-project" (some "Ninja") none)
      "-G" "Ninja" = 1 ∧
    (cmake_cmd_line "cmake" "/srcdir/llvm-project" (some "Ninja") none).count
      "-DCMAKE_BUILD_TYPE=Release" = 1 ∧
    (cmake_cmd_line "cmake" "/srcdir/llvm-project" (some "Ninja") none).count
      "-DCMAKE_INSTALL_PREFIX=/opt/llvm" = 0 ∧
    ((main_model okConfig (some "/srcdir/llvm-project") (some "Ninja") none
        (some "/opt/llvm")) startSys).2.events.all
      (fun e => !runEventHasToken "-DCMAKE_INSTALL_PREFIX=/opt/llvm" e) = true := by
  decide

/-- C8: the claim is that the stderr of a failing step is reported before
the run aborts.  The code logs `cmake.stderr` at ERROR level, but
`subprocess.run` is called without `capture_output`/`stderr=PIPE`, so
`CompletedProcess.stderr` is Python `None`: on a run whose configure step
exits non-zero, the run aborts (non-ok result), an ERROR record with message
`None` is in the trace, and no ERROR record of the whole trace carries any
message content - the failing step's stderr is never reported. -/
theorem C8_error_log_carries_no_stderr :
    resOk ((main_model confFailConfig (some "/srcdir/llvm-project") none none none)
      startSys).1 = false ∧
    Event.log 40 none ∈
      ((main_model confFailConfig (some "/srcdir/llvm-project") none none none)
        startSys).2.events ∧
    ((main_model confFailConfig (some "/srcdir/llvm-project") none none none)
        startSys).2.events.all (fun e => !errorLogHasMsg e) = true := by
  decide

/-- C5 counterexample: `--source ""` is a caller-supplied `--source` value,
yet the run invokes the clone command, because `if args.sources` is a Python
truthiness test and the empty string is falsy - refuting "never invokes a
clone command" as stated for every caller-supplied path. -/
theorem C5_counterexample_empty_source_clones :
    Event.run git_clone_cmd ∈
      ((main_model okConfig (some "") none none none) startSys).2.events := by
  decide

/-- C5 (amended): for every caller-supplied NON-EMPTY `--source` path the
resolver returns exactly the path after home-marker expansion with the
state untouched (no validation, no events), and the full run's trace never
contains the clone invocation. -/
theorem C5_nonempty_source_used_verbatim :
    (∀ (C : Config) (p : String) (s : Sys), p ≠ "" →
      resolve_source C (some p) s = (Except.ok (expanduser C.home p), s)) ∧
    (∀ (C : Config) (p : String) (gen bd pfx : Option String)
       (cwd : String) (dirs : List String) (ctr : Nat), p ≠ "" →
      ∀ e ∈ ((main_model C (some p) gen bd pfx)
          { cwd := cwd, dirs := dirs, tmpCounter := ctr, events := [] }).2.events,
        isCloneEvent e = false) := by
  constructor
  · intro C p s hp
    rw [resolve_source_truthy C hp]
    rfl
  · intro C p gen bd pfx cwd dirs ctr hp e he
    have hpred : EventsPred (fun ev => isCloneEvent ev = false)
        (main_model C (some p) gen bd pfx) := by
      unfold main_model
      refine eventsPred_withTemporaryDirectory C (fun wd => ?_)
      refine eventsPred_cd C wd ?_
      refine eventsPred_bind (eventsPred_logEvent rfl) (fun _ => ?_)
      rw [resolve_source_truthy C hp]
      refine eventsPred_bind (eventsPred_pure _) (fun src => ?_)
      refine eventsPred_mono (eventsPred_build_directory C bd (fun name =>
        eventsPred_cd C name (eventsPred_build_steps C src gen none))) ?_
      intro ev hev
      rcases hev with ⟨l, msg, h1⟩ | h1 | h1 | h1
      · rw [h1]; rfl
      · rw [h1]
        have hne2 : cmake_cmd_line (which C "cmake") src gen none ≠ git_clone_cmd :=
          fun hh => clone_ne_cmake_cmd_line (which C "cmake") src gen none hh.symm
        simp [isCloneEvent, beq_eq_false_iff_ne, hne2]
      · rw [h1]
        have hne2 : build_cmd_line (which C "cmake") ≠ git_clone_cmd :=
          fun hh => clone_ne_build_cmd (which C "cmake") hh.symm
        simp [isCloneEvent, beq_eq_false_iff_ne, hne2]
      · rw [h1]
        have hne2 : install_cmd_line (which C "cmake") ≠ git_clone_cmd :=
          fun hh => clone_ne_install_cmd (which C "cmake") hh.symm
        simp [isCloneEvent, beq_eq_false_iff_ne, hne2]
    rcases hpred _ e he with h1 | h1
    · exact absurd h1 (by simp)
    · exact h1

/-- C5 witness: concrete instantiations of both amended parts. -/
theorem C5_witness :
    resolve_source okConfig (some "~/llvm") startSys =
      (Except.ok "/home/user/llvm", startSys) ∧
    isCloneEvent (Event.run (cmake_cmd_line "cmake" "/srcdir/llvm-project"
      none none)) = false := by
  constructor
  · exact C5_nonempty_source_used_verbatim.1 okConfig "~/llvm" startSys (by decide)
  · exact C5_nonempty_source_used_verbatim.2 okConfig "/srcdir/llvm-project"
      none none none "/work" ["/work", "/srcdir"] 0 (by decide)
      (Event.run (cmake_cmd_line "cmake" "/srcdir/llvm-project" none none))
      (by decide)

/-- C7 counterexample: with `GIT_EXECUTABLE=/alt/git` set in the
environment, the clone is still invoked as bare `git` (source line 30
hard-codes the name instead of calling `which`): the alternate executable
path never appears in the invoked command, refuting the claim for the tool
`git`. -/
theorem C7_counterexample_git_override_ignored :
    (download_llvm gitOverrideConfig startSys).2.events = [Event.run git_clone_cmd] ∧
    git_clone_cmd.head? = some "git" ∧
    "/alt/git" ∉ git_clone_cmd := by
  decide

/-- C7 (amended): only tools resolved through `which` honor the
`X_EXECUTABLE` override.  `cmake` does: `which C "cmake"` is the value of
`CMAKE_EXECUTABLE` when set and the bare name `"cmake"` when unset, and the
configure, build and install command vectors are all headed by that
resolved executable.  `git` does not: `download_llvm` always records
exactly the hard-coded clone vector, whose executable is the bare name
`"git"`, whatever the environment holds. -/
theorem C7_only_cmake_honors_executable_override :
    (∀ C : Config, which C "cmake" = (C.env "CMAKE_EXECUTABLE").getD "cmake") ∧
    (∀ (C : Config) (src : String) (gen ipf : Option String),
      (cmake_cmd_line (which C "cmake") src gen ipf).head? = some (which C "cmake") ∧
      (build_cmd_line (which C "cmake")).head? = some (which C "cmake") ∧
      (install_cmd_line (which C "cmake")).head? = some (which C "cmake")) ∧
    (∀ (C : Config) (s : Sys),
      (download_llvm C s).2.events = s.events ++ [Event.run git_clone_cmd]) ∧
    git_clone_cmd.head? = some "git" := by
  refine ⟨?_, ?_, ?_, rfl⟩
  · intro C
    unfold which
    have h : strToUpper "cmake" ++ "_EXECUTABLE" = "CMAKE_EXECUTABLE" := by decide
    rw [h]
  · intro C src gen ipf
    refine ⟨?_, rfl, rfl⟩
    unfold cmake_cmd_line fixed_cmake_flags
    by_cases hg : gen.getD "" ≠ "" <;> by_cases hi : ipf.getD "" ≠ "" <;>
      simp [hg, hi]
  · intro C s
    by_cases h : C.exitCode git_clone_cmd = 0
    · rw [download_llvm_ok C s h]
    · rw [download_llvm_fail C s h]

/-- C2: every `cd` scope exits in the working directory saved on entry, on
success and failure alike (given that the saved directory still exists when
the scope exits - the hypothesis states the scope body never removes it),
and consequently a full `__main__` run, for any flags and any subprocess
outcomes, ends in the working directory it started in.  The side conditions
are the real-world facts that the starting directory exists and that the
fresh temporary-directory names differ from it. -/
theorem C2_working_directory_restored :
    (∀ (C : Config) (nd : String) (body : M Unit) (s : Sys),
      s.cwd ∈ s.dirs →
      (∀ s1 : Sys, s.cwd ∈ s1.dirs → s.cwd ∈ (body s1).2.dirs) →
      ((cd C nd body) s).2.cwd = s.cwd) ∧
    (∀ (C : Config) (sources gen bd pfx : Option String) (s : Sys),
      s.cwd ∈ s.dirs →
      (∀ n, C.tmpName n ≠ s.cwd) →
      ((main_model C sources gen bd pfx) s).2.cwd = s.cwd) := by
  constructor
  · intro C nd body s hcwd hk
    exact cd_restores_cwd C nd body s hcwd hk
  · intro C sources gen bd pfx s hcwd hfresh
    unfold main_model withTemporaryDirectory
    rw [bind_eq_ok (mkTempDir_eq C s), tryFinally_snd, rmtree_cwd]
    exact cd_restores_cwd C _ _ _ (by simp [hcwd])
      (keepsDir_main_inner C sources gen bd _ hfresh)

/-- C2 witness: both parts applied at concrete inputs. -/
theorem C2_witness :
    (cd okConfig "/srcdir" (logEvent 20 none) startSys).2.cwd = "/work" ∧
    ((main_model okConfig none none none none) startSys).2.cwd = "/work" := by
  constructor
  · exact C2_working_directory_restored.1 okConfig "/srcdir" (logEvent 20 none)
      startSys (by decide) (fun _ h => h)
  · exact C2_working_directory_restored.2 okConfig none none none none startSys
      (by decide) (fun n => by dsimp [okConfig, startSys]; split <;> decide)

/-- C3: a failing configure step aborts the run - `build_llvm` yields the
Python exit status 1 and its trace never contains the build or install
invocation; a failing build step means the install invocation never appears;
and at the `__main__` level a configure failure (for whatever source
directory the resolver produced) makes the whole process exit non-zero.
Together with `C3_failed_step_aborts_run`-independent facts that configure
always precedes build and install in the trace, this is the strict
check-then-proceed sequencing the claim states. -/
theorem C3_failed_step_aborts_run :
    (∀ (C : Config) (src : String) (gen bd ipf : Option String)
       (cwd : String) (dirs : List String) (ctr : Nat),
      C.exitCode (cmake_cmd_line (which C "cmake") src gen ipf) ≠ 0 →
      processExitCode ((build_llvm C src gen bd ipf)
          { cwd := cwd, dirs := dirs, tmpCounter := ctr, events := [] }).1 = 1 ∧
      (∀ e ∈ ((build_llvm C src gen bd ipf)
          { cwd := cwd, dirs := dirs, tmpCounter := ctr, events := [] }).2.events,
        e ≠ Event.run (build_cmd_line (which C "cmake")) ∧
        e ≠ Event.run (install_cmd_line (which C "cmake")))) ∧
    (∀ (C : Config) (src : String) (gen bd ipf : Option String)
       (cwd : String) (dirs : List String) (ctr : Nat),
      C.exitCode (build_cmd_line (which C "cmake")) ≠ 0 →
      Event.run (install_cmd_line (which C "cmake")) ∉
        ((build_llvm C src gen bd ipf)
          { cwd := cwd, dirs := dirs, tmpCounter := ctr, events := [] }).2.events) ∧
    (∀ (C : Config) (sources gen bd pfx : Option String) (s : Sys),
      (∀ srcv, C.exitCode (cmake_cmd_line (which C "cmake") srcv gen none) ≠ 0) →
      processExitCode ((main_model C sources gen bd pfx) s).1 = 1) := by
  refine ⟨?_, ?_, ?_⟩
  · intro C src gen bd ipf cwd dirs ctr h
    refine ⟨processExitCode_of_not_ok
      (build_llvm_not_ok_of_conf_fail C src gen bd ipf _ h), ?_⟩
    intro e he
    rcases eventsPred_build_llvm_conf_fail C src gen bd ipf h _ e he with h1 | h1
    · exact absurd h1 (by simp)
    · rcases h1 with ⟨l, msg, h2⟩ | h2
      · rw [h2]
        constructor <;> simp
      · rw [h2]
        constructor
        · simp only [ne_eq, Event.run.injEq]
          exact fun hx => build_cmd_ne_cmake_cmd_line (which C "cmake")
            (which C "cmake") src gen ipf hx.symm
        · simp only [ne_eq, Event.run.injEq]
          exact fun hx => install_cmd_ne_cmake_cmd_line (which C "cmake")
            (which C "cmake") src gen ipf hx.symm
  · intro C src gen bd ipf cwd dirs ctr h hmem
    have hpred := (eventsPred_build_directory C bd (fun name => eventsPred_cd C name
      (eventsPred_build_steps_build_fail C src gen ipf h))) _ _ hmem
    rcases hpred with h1 | h1
    · exact absurd h1 (by simp)
    · rcases h1 with ⟨l, msg, h2⟩ | h2 | h2
      · exact absurd h2 (by simp)
      · rw [Event.run.injEq] at h2
        exact install_cmd_ne_cmake_cmd_line (which C "cmake") (which C "cmake")
          src gen ipf h2
      · rw [Event.run.injEq] at h2
        exact build_cmd_ne_install_cmd (which C "cmake") (which C "cmake") h2.symm
  · intro C sources gen bd pfx s h
    exact processExitCode_of_not_ok
      (main_model_not_ok_of_conf_fail C sources gen bd pfx s h)

/-- C3 witness: the three parts applied at concrete inputs. -/
theorem C3_witness :
    processExitCode ((build_llvm confFailConfig "/srcdir/llvm-project" none none none)
        { cwd := "/work", dirs := ["/work", "/srcdir"], tmpCounter := 0,
          events := [] }).1 = 1 ∧
    Event.run (install_cmd_line (which buildFailConfig "cmake")) ∉
      ((build_llvm buildFailConfig "/srcdir/llvm-project" none none none)
        { cwd := "/work", dirs := ["/work", "/srcdir"], tmpCounter := 0,
          events := [] }).2.events ∧
    processExitCode ((main_model confFailConfig (some "/srcdir/llvm-project")
        none none none) startSys).1 = 1 := by
  refine ⟨(C3_failed_step_aborts_run.1 confFailConfig "/srcdir/llvm-project"
      none none none "/work" ["/work", "/srcdir"] 0 (by decide)).1, ?_, ?_⟩
  · exact C3_failed_step_aborts_run.2.1 buildFailConfig "/srcdir/llvm-project"
      none none none "/work" ["/work", "/srcdir"] 0 (by decide)
  · refine C3_failed_step_aborts_run.2.2 confFailConfig (some "/srcdir/llvm-project")
      none none none startSys (fun srcv => ?_)
    have hmem := mem_build_type_cmake_cmd_line (which confFailConfig "cmake")
      srcv none none
    dsimp only [confFailConfig] at hmem ⊢
    rw [if_pos hmem]
    decide

/-- C4: without `--source`, the resolver performs exactly one clone
invocation (the trace of `download_llvm` grows by exactly that one run
event, whatever the outcome - hence also no retry), whose vector carries
`--depth 1` and the fixed repository URL; on success it returns
`os.path.join(cwd, "llvm-project")`, a path ending in the repository's
default directory name; and when the clone exits non-zero, the whole
`__main__` run exits with status 1 after having invoked the clone exactly
once.  The last part assumes the real-world side condition that the fresh
temporary name contains no home marker (so the `cd` into the fresh
temporary directory succeeds and the resolver is reached). -/
theorem C4_clone_resolution :
    (∀ (C : Config) (s : Sys),
      (download_llvm C s).2.events = s.events ++ [Event.run git_clone_cmd]) ∧
    (countPair git_clone_cmd "--depth" "1" = 1 ∧
      "https://github.com/llvm/llvm-project.git" ∈ git_clone_cmd ∧
      git_clone_cmd.count "clone" = 1) ∧
    (∀ (C : Config) (s : Sys), C.exitCode git_clone_cmd = 0 →
      (download_llvm C s).1 = Except.ok (joinPath s.cwd "llvm-project") ∧
      pathEndsIn (joinPath s.cwd "llvm-project") "llvm-project") ∧
    (∀ (C : Config) (gen bd pfx : Option String) (cwd : String)
       (dirs : List String) (ctr : Nat),
      C.exitCode git_clone_cmd ≠ 0 →
      expanduser C.home (C.tmpName ctr) = C.tmpName ctr →
      processExitCode ((main_model C none gen bd pfx)
          { cwd := cwd, dirs := dirs, tmpCounter := ctr, events := [] }).1 = 1 ∧
      (((main_model C none gen bd pfx)
          { cwd := cwd, dirs := dirs, tmpCounter := ctr,
            events := [] }).2.events.countP isCloneEvent) = 1) := by
  refine ⟨?_, by decide, ?_, ?_⟩
  · intro C s
    by_cases h : C.exitCode git_clone_cmd = 0
    · rw [download_llvm_ok C s h]
    · rw [download_llvm_fail C s h]
  · intro C s h
    refine ⟨?_, pathEndsIn_joinPath _ _⟩
    rw [download_llvm_ok C s h]
  · intro C gen bd pfx cwd dirs ctr h hexp
    have hinner : ∀ s2 : Sys,
        (M.bind (logEvent 20
            (some ("Use " ++ C.tmpName ctr ++ " as temporary directory")))
          (fun _ => M.bind (resolve_source C none)
            (fun src => build_llvm C src gen bd none))) s2 =
        (Except.error (Err.calledProcessError git_clone_cmd
            (C.exitCode git_clone_cmd)),
         { s2 with events := s2.events ++
            [Event.log 20 (some ("Use " ++ C.tmpName ctr ++ " as temporary directory")),
             Event.run git_clone_cmd] }) := by
      intro s2
      rw [bind_logEvent, resolve_source_none C,
        bind_eq_error _ (download_llvm_fail C _ h)]
      simp [List.append_assoc]
    have hmem : expanduser C.home (C.tmpName ctr) ∈
        ({ cwd := cwd, dirs := dirs ++ [C.tmpName ctr], tmpCounter := ctr + 1,
           events := [] } : Sys).dirs := by
      rw [hexp]
      simp
    constructor
    · refine processExitCode_of_not_ok ?_
      unfold main_model withTemporaryDirectory
      rw [bind_eq_ok (mkTempDir_eq C _), tryFinally_rmtree_fst]
      dsimp only
      rw [cd_eq_of_mem C _ _ _ hmem]
      refine tryFinally_not_ok ?_
      rw [hinner _]
      rfl
    · unfold main_model withTemporaryDirectory
      rw [bind_eq_ok (mkTempDir_eq C _), tryFinally_snd, rmtree_events]
      dsimp only
      rw [cd_events, if_pos hmem, hinner _]
      simp [List.countP_cons, isCloneEvent]

/-- C4 witness: success and failure parts applied at concrete inputs. -/
theorem C4_witness :
    (download_llvm okConfig startSys).1 =
      Except.ok (joinPath "/work" "llvm-project") ∧
    processExitCode ((main_model cloneFailConfig none none none none)
      startSys).1 = 1 := by
  constructor
  · exact (C4_clone_resolution.2.2.1 okConfig startSys (by decide)).1
  · exact (C4_clone_resolution.2.2.2 cloneFailConfig none none none "/work"
      ["/work", "/srcdir"] 0 (by decide) (by decide)).1

/-- C6: a caller-supplied (non-empty) `--build-dir`, once expanded, still
exists in the final state of a full run, whatever the subprocess outcomes -
the program never deletes it (side conditions: it existed at the start and
differs from the fresh temporary names); and on a run without `--build-dir`
the ephemeral build directory (the second fresh temporary name) does not
exist in the final state, on success and failure paths alike (side
conditions: it was fresh and differs from the run's first temporary name). -/
theorem C6_build_dir_lifecycle :
    (∀ (C : Config) (sources gen pfx : Option String) (p : String) (s : Sys),
      p ≠ "" →
      (∀ n, C.tmpName n ≠ expanduser C.home p) →
      expanduser C.home p ∈ s.dirs →
      expanduser C.home p ∈ ((main_model C sources gen (some p) pfx) s).2.dirs) ∧
    (∀ (C : Config) (sources gen pfx : Option String) (cwd : String)
       (dirs : List String) (ctr : Nat),
      C.tmpName (ctr + 1) ∉ dirs →
      C.tmpName (ctr + 1) ≠ C.tmpName ctr →
      C.tmpName (ctr + 1) ∉
        ((main_model C sources gen none pfx)
          { cwd := cwd, dirs := dirs, tmpCounter := ctr, events := [] }).2.dirs) := by
  constructor
  · intro C sources gen pfx p s hp hfresh hmem
    unfold main_model withTemporaryDirectory
    rw [bind_eq_ok (mkTempDir_eq C s), tryFinally_snd, rmtree_dirs]
    refine List.mem_filter.2 ⟨?_, ?_⟩
    · refine keepsDir_cd C _
        (keepsDir_main_inner C sources gen (some p) _ hfresh) _ ?_
      simp [hmem]
    · simp only [bne_iff_ne, ne_eq, decide_eq_true_eq]
      exact fun hx => hfresh s.tmpCounter hx.symm
  · intro C sources gen pfx cwd dirs ctr hnot hne hmem
    unfold main_model withTemporaryDirectory at hmem
    rw [bind_eq_ok (mkTempDir_eq C _), tryFinally_snd, rmtree_dirs] at hmem
    have h1 := (List.mem_filter.1 hmem).1
    rw [cd_dirs] at h1
    by_cases hm : expanduser C.home (C.tmpName ctr) ∈
        ({ cwd := cwd, dirs := dirs ++ [C.tmpName ctr], tmpCounter := ctr + 1,
           events := [] } : Sys).dirs
    · rw [if_pos hm] at h1
      have h2 := addsNoDirs_main_inner C sources gen none (C.tmpName ctr) _ _ h1
      simp only [List.mem_append, List.mem_singleton] at h2
      rcases h2 with h2 | h2
      · exact hnot h2
      · exact hne h2
    · rw [if_neg hm] at h1
      simp only [List.mem_append, List.mem_singleton] at h1
      rcases h1 with h1 | h1
      · exact hnot h1
      · exact hne h1

/-- C6 witness: both parts applied at concrete inputs. -/
theorem C6_witness :
    "/mybuild" ∈ ((main_model okConfig (some "/srcdir/llvm-project") none
        (some "/mybuild") none)
      { cwd := "/work", dirs := ["/work", "/srcdir", "/mybuild"], tmpCounter := 0,
        events := [] }).2.dirs ∧
    okConfig.tmpName 1 ∉ ((main_model okConfig (some "/srcdir/llvm-project") none
        none none) startSys).2.dirs := by
  constructor
  · exact C6_build_dir_lifecycle.1 okConfig (some "/srcdir/llvm-project") none none
      "/mybuild"
      { cwd := "/work", dirs := ["/work", "/srcdir", "/mybuild"], tmpCounter := 0,
        events := [] }
      (by decide) (fun n => by dsimp [okConfig]; split <;> decide) (by decide)
  · exact C6_build_dir_lifecycle.2 okConfig (some "/srcdir/llvm-project") none none
      "/work" ["/work", "/srcdir"] 0 (by decide) (by decide)

/-- C9: although the spec promises home-marker expansion only for
`--source`, a caller-supplied `--build-dir` is expanded too: with a truthy
`build_dir`, the `build_directory` context manager yields exactly
`expanduser(build_dir)` (first part), and the `cd` scope entered with that
yielded value changes the working directory to that same expanded path
before running its body (second part; the side conditions are that the
expansion is idempotent - true of any real home directory - and that the
expanded directory exists so the change succeeds). -/
theorem C9_build_dir_home_expansion :
    (∀ (α : Type) (C : Config) (p : String) (body : String → M α), p ≠ "" →
      build_directory C (some p) body = body (expanduser C.home p)) ∧
    (∀ (α : Type) (C : Config) (p : String) (body : M α) (s : Sys),
      expanduser C.home (expanduser C.home p) = expanduser C.home p →
      expanduser C.home p ∈ s.dirs →
      cd C (expanduser C.home p) body s =
        M.tryFinally body (chdir s.cwd)
          { s with cwd := expanduser C.home p }) := by
  constructor
  · intro α C p body hp
    unfold build_directory
    rw [if_neg (by simpa using hp)]
    rfl
  · intro α C p body s hid hmem
    rw [cd_eq_of_mem C (expanduser C.home p) body s (by rw [hid]; exact hmem), hid]

/-- C9 witness: both parts applied at concrete inputs. -/
theorem C9_witness :
    build_directory okConfig (some "~/mybuild") (fun d => M.pure d) =
      M.pure "/home/user/mybuild" ∧
    cd okConfig "/home/user/mybuild" (M.pure ())
      { cwd := "/work", dirs := ["/work", "/home/user/mybuild"], tmpCounter := 0,
        events := [] } =
      M.tryFinally (M.pure ()) (chdir "/work")
        { cwd := "/home/user/mybuild", dirs := ["/work", "/home/user/mybuild"],
          tmpCounter := 0, events := [] } := by
  constructor
  · exact C9_build_dir_home_expansion.1 String okConfig "~/mybuild"
      (fun d => M.pure d) (by decide)
  · exact C9_build_dir_home_expansion.2 Unit okConfig "~/mybuild" (M.pure ())
      { cwd := "/work", dirs := ["/work", "/home/user/mybuild"], tmpCounter := 0,
        events := [] }
      (by decide) (by decide)

/-- C10: the program never creates a caller-supplied `--build-dir`.  When
the supplied (truthy) directory does not exist after expansion, `build_llvm`
raises the filesystem error of `os.chdir` at exactly that expanded path and
returns with the state completely unchanged: no configure, build or install
invocation was recorded, no directory was created, and the working directory
is the one from before the call (the `finally` restore succeeded because the
prior directory exists). -/
theorem C10_missing_build_dir_fails_fast (C : Config) (src p : String)
    (gen ipf : Option String) (s : Sys) (hp : p ≠ "")
    (hid : expanduser C.home (expanduser C.home p) = expanduser C.home p)
    (hnot : expanduser C.home p ∉ s.dirs) (hcwd : s.cwd ∈ s.dirs) :
    build_llvm C src gen (some p) ipf s =
      (Except.error (Err.fileNotFoundError (expanduser C.home p)), s) := by
  unfold build_llvm build_directory
  rw [if_neg (by simpa using hp)]
  show cd C (expanduser C.home p) (build_steps C src gen ipf) s = _
  rw [cd_eq_of_not_mem C _ _ s (by rw [hid]; exact hnot) hcwd, hid]

/-- C10 witness: the theorem applied at a concrete input. -/
theorem C10_witness :
    build_llvm okConfig "/srcdir/llvm-project" none (some "~/nodir") none startSys =
      (Except.error (Err.fileNotFoundError "/home/user/nodir"), startSys) :=
  C10_missing_build_dir_fails_fast okConfig "/srcdir/llvm-project" "~/nodir"
    none none startSys (by decide) (by decide) (by decide) (by decide)

end LlvmFromSource
